import Mathlib

/-
Verification of the mddplayer terminal audio player (src/main.rs, src/utils.rs).

The development shallowly embeds the pieces of the program the properties
talk about:
  * the preload-result protocol and the outer-loop receive filter
    (main.rs lines 190-311),
  * the loop-reset check and the failure/timeout handling of the outer loop,
  * the forced-transition index arithmetic (main.rs lines 433-447),
  * the skip-next key handling of the inner loop (main.rs lines 397-402),
  * the per-track timing model (main.rs lines 313-338),
  * display-width truncation and status-line formatting
    (utils.rs lines 7-35, main.rs lines 341-366).

Instants are modelled as natural numbers (milliseconds on a monotone clock);
Rust saturating subtraction on unsigned quantities is natural subtraction.
-/

namespace MddPlayer

/-- Preload result message sent from a preloader thread to the main thread
(main.rs lines 53-56).  The decoded stream and metadata payload is abstracted
to an opaque identifier, since only its identity and its tagged index matter
to the orchestrator's filtering logic. -/
inductive PreloadResult where
  | success (payloadId : Nat) (index : Nat)
  | failure (index : Nat) (errMsg : String) (filename : String)
deriving DecidableEq

/-- The playlist index a preload result is tagged with. -/
def PreloadResult.index : PreloadResult → Nat
  | .success _ i => i
  | .failure i _ _ => i

/-- Outcome of the outer-loop receive loop (main.rs lines 206-284). -/
inductive WaitOutcome where
  | matchedSuccess (payloadId : Nat) (index : Nat) (rest : List PreloadResult)
  | matchedFailure (index : Nat) (errMsg : String) (filename : String) (rest : List PreloadResult)
  | timedOut
  | disconnected
deriving DecidableEq

/-- The receive loop of the orchestrator (main.rs lines 206-284): messages are
taken in arrival order; a message whose tagged index differs from
`cur` is discarded and the wait continues; a message tagged `cur` ends the
wait.  An exhausted arrival sequence stands for `recv_timeout` elapsing with
no message; per std mpsc semantics the receiver reports `Disconnected`
only when every `Sender` has been dropped, which `txAlive` models.
Returns the list of discarded messages together with the outcome. -/
def waitForCurrent (cur : Nat) (txAlive : Bool) :
    List PreloadResult → List PreloadResult × WaitOutcome
  | [] => ([], if txAlive then .timedOut else .disconnected)
  | .success p i :: rest =>
      if i = cur then ([], .matchedSuccess p i rest)
      else (.success p i :: (waitForCurrent cur txAlive rest).1,
            (waitForCurrent cur txAlive rest).2)
  | .failure i e f :: rest =>
      if i = cur then ([], .matchedFailure i e f rest)
      else (.failure i e f :: (waitForCurrent cur txAlive rest).1,
            (waitForCurrent cur txAlive rest).2)

/-- Forced-transition index update for skip-next (main.rs line 437). -/
def skipNextIndex (totalTracks i : Nat) : Nat := (i + 1) % totalTracks

/-- Forced-transition index update for skip-previous (main.rs line 440). -/
def skipPrevIndex (totalTracks i : Nat) : Nat :=
  if i = 0 then totalTracks - 1 else i - 1

/-- Look-ahead preload decision taken right after a matching success is
consumed (main.rs lines 304-311): the next index is `(i + 1) % total`, and a
preload for it is spawned only when it differs from the current index and
(loop mode is on, or the current index is below `total.saturating_sub 1`). -/
def lookaheadTarget (totalTracks : Nat) (isLoopEnabled : Bool) (i : Nat) : Option Nat :=
  if (i + 1) % totalTracks ≠ i ∧ (isLoopEnabled = true ∨ i < totalTracks - 1) then
    some ((i + 1) % totalTracks)
  else none

/-- The pieces of inner-loop state a skip-next key event may touch
(main.rs lines 397-402): the pending index offset, the forced-stop flag,
whether the sink was stopped, the debounce timestamp, and whether the inner
loop was broken out of. -/
structure InnerLoopState where
  indexOffset : Int
  forcedStop : Bool
  sinkStopped : Bool
  lastSkipTime : Nat
  breakInner : Bool
deriving DecidableEq

/-- Handling of a skip-next key event in the inner loop (main.rs lines
397-402), at current index `cur` and wall time `now`: the event is dropped
inside the 250 ms debounce window; otherwise, if a next track exists
(`cur < total - 1` or loop mode), the sink is stopped, the offset and flags
are set, the debounce clock is reset and the inner loop is broken. -/
def handleSkipNextKey (totalTracks : Nat) (isLoopEnabled : Bool) (cur : Nat)
    (now : Nat) (st : InnerLoopState) : InnerLoopState :=
  if now - st.lastSkipTime < 250 then st
  else if cur < totalTracks - 1 ∨ isLoopEnabled = true then
    { indexOffset := 1, forcedStop := true, sinkStopped := true,
      lastSkipTime := now, breakInner := true }
  else st

/-- Orchestrator state across outer-loop passes: the current playlist index
and the indices of spawned, not-yet-delivered preloads (in-flight workers). -/
structure OrchState where
  currentTrackIndex : Nat
  inflight : List Nat
deriving DecidableEq

/-- The loop-reset check at the top of the outer loop (main.rs lines
192-203): when the index has run past the playlist, loop mode resets it to 0
and (the playlist being non-empty) spawns a preload for index 0; without
loop mode the outer loop ends (`none`). -/
def loopResetCheck (totalTracks : Nat) (isLoopEnabled : Bool) (s : OrchState) :
    Option OrchState :=
  if totalTracks ≤ s.currentTrackIndex then
    if isLoopEnabled then
      some { currentTrackIndex := 0,
             inflight := if 0 < totalTracks then 0 :: s.inflight else s.inflight }
    else none
  else some s

/-- Each delivered message corresponds to one completed preloader thread, so
its index leaves the in-flight list. -/
def eraseDelivered (inflight : List Nat) (delivered : List PreloadResult) : List Nat :=
  delivered.foldl (fun fl m => fl.erase m.index) inflight

/-- How the inner loop of a successfully acquired track ended: the track
drained naturally, or a debounce-accepted skip broke out of it. -/
inductive InnerOutcome where
  | finished
  | skippedNext
  | skippedPrev
deriving DecidableEq

/-- How one pass of the outer loop ended. -/
inductive PassStatus where
  | continued
  | ended
  | fatal
deriving DecidableEq

/-- Observable record of one pass of the outer loop. -/
structure PassOutput where
  state : OrchState
  status : PassStatus
  errorLine : Option (Nat × String × String)
  dwellSeconds : Nat
  errorCleared : Bool
  played : Option (Nat × Nat)
  discarded : List PreloadResult
  leftover : List PreloadResult
deriving DecidableEq

/-- One pass of the outer loop (main.rs lines 190-311 and 434-447): the
loop-reset check; then the receive loop; then, on a matching success, sink
hand-off (`played`), the look-ahead spawn and the inner loop whose outcome
drives the index update; on a matching failure or a timeout, the error line,
the 5 second dwell, the line clear, the index increment and the conditional
respawn; on disconnection, fatal termination.  `arrivals` is the channel
content in arrival order, universally quantified in the theorems to cover
every interleaving of worker completions. -/
def outerPass (totalTracks : Nat) (isLoopEnabled : Bool) (txAlive : Bool)
    (arrivals : List PreloadResult) (inner : InnerOutcome) (s0 : OrchState) :
    PassOutput :=
  match loopResetCheck totalTracks isLoopEnabled s0 with
  | none =>
      { state := s0, status := .ended, errorLine := none, dwellSeconds := 0,
        errorCleared := false, played := none, discarded := [], leftover := arrivals }
  | some s =>
      match waitForCurrent s.currentTrackIndex txAlive arrivals with
      | (disc, WaitOutcome.matchedSuccess payload i rest) =>
          let fl := (eraseDelivered s.inflight disc).erase i
          let fl2 := match lookaheadTarget totalTracks isLoopEnabled i with
                     | some n => n :: fl
                     | none => fl
          let newIdx := match inner with
                        | .finished => i + 1
                        | .skippedNext => skipNextIndex totalTracks i
                        | .skippedPrev => skipPrevIndex totalTracks i
          { state := { currentTrackIndex := newIdx, inflight := fl2 },
            status := .continued, errorLine := none, dwellSeconds := 0,
            errorCleared := false, played := some (payload, i),
            discarded := disc, leftover := rest }
      | (disc, WaitOutcome.matchedFailure i e f rest) =>
          let fl := (eraseDelivered s.inflight disc).erase i
          let newIdx := i + 1
          let fl2 := if newIdx < totalTracks then newIdx :: fl else fl
          { state := { currentTrackIndex := newIdx, inflight := fl2 },
            status := .continued, errorLine := some (i, e, f), dwellSeconds := 5,
            errorCleared := true, played := none, discarded := disc, leftover := rest }
      | (disc, WaitOutcome.timedOut) =>
          let fl := eraseDelivered s.inflight disc
          let newIdx := s.currentTrackIndex + 1
          let fl2 := if newIdx < totalTracks then newIdx :: fl else fl
          { state := { currentTrackIndex := newIdx, inflight := fl2 },
            status := .continued,
            errorLine := some (s.currentTrackIndex, "音乐加载太久，跳过", ""),
            dwellSeconds := 5, errorCleared := true, played := none,
            discarded := disc, leftover := [] }
      | (disc, WaitOutcome.disconnected) =>
          { state := s, status := .fatal, errorLine := none, dwellSeconds := 0,
            errorCleared := false, played := none, discarded := disc, leftover := [] }

/-- Per-track playback session timing state (main.rs lines 313-318), reset
whenever a track becomes current: the monotone start instant, the total time
spent paused so far, the instant the current pause began (if paused), and the
elapsed value frozen when pausing started. -/
structure PlaybackSession where
  startTime : Nat
  pausedDuration : Nat
  lastPauseTime : Option Nat
  lastRunningTime : Nat
deriving DecidableEq

/-- A fresh session, created the moment a track starts playing
(main.rs lines 314-317). -/
def newSession (now : Nat) : PlaybackSession :=
  { startTime := now, pausedDuration := 0, lastPauseTime := none, lastRunningTime := 0 }

/-- One timing update of the inner loop (main.rs lines 322-338) at instant
`now` with the sink's paused flag: on the first tick of a pause the pause
start is recorded and the elapsed value frozen; on the first tick after a
resume the pause length is folded into `pausedDuration`; the reported elapsed
time is the frozen value while paused and
`now - startTime - pausedDuration` (saturating) while playing.
Returns the updated session and the reported elapsed time. -/
def timingTick (now : Nat) (paused : Bool) (s : PlaybackSession) :
    PlaybackSession × Nat :=
  if paused then
    match s.lastPauseTime with
    | none =>
        ({ s with lastPauseTime := some now,
                  lastRunningTime := now - s.startTime - s.pausedDuration },
         now - s.startTime - s.pausedDuration)
    | some _ => (s, s.lastRunningTime)
  else
    match s.lastPauseTime with
    | some ps =>
        ({ s with pausedDuration := s.pausedDuration + (now - ps),
                  lastPauseTime := none },
         now - s.startTime - (s.pausedDuration + (now - ps)))
    | none => (s, now - s.startTime - s.pausedDuration)

/-- Running the timing update over a trace of `(instant, pausedFlag)` ticks,
collecting the reported elapsed times. -/
def runTicks (s : PlaybackSession) : List (Nat × Bool) → List Nat
  | [] => []
  | (t, p) :: rest => (timingTick t p s).2 :: runTicks (timingTick t p s).1 rest

/-- Modelled from the spec (§4.4): the wall-clock time spent paused along a
tick trace, measured independently of the session state — a pause runs from
the first tick observed while paused to the next tick observed while playing;
`pending` is the start of a not-yet-finished pause. -/
def pausedWallClock : Option Nat → List (Nat × Bool) → Nat
  | _, [] => 0
  | none, (t, true) :: rest => pausedWallClock (some t) rest
  | none, (_, false) :: rest => pausedWallClock none rest
  | some ps, (_, true) :: rest => pausedWallClock (some ps) rest
  | some ps, (t, false) :: rest => (t - ps) + pausedWallClock none rest

/-- Modelled from the spec: terminal display width of a character, standing
in for the external unicode-width crate — one column for ASCII, two columns
for wide (CJK) glyphs. -/
def charWidth (c : Char) : Nat := if c.toNat < 128 then 1 else 2

/-- Display width of a string (a list of characters). -/
def strWidth (s : List Char) : Nat := (s.map charWidth).sum

/-- The character-accumulating loop of `truncate_string`
(utils.rs lines 20-31): keep consuming characters while the accumulated
width stays within `maxContentWidth`. -/
def truncateAux (maxContentWidth : Nat) : List Char → Nat → List Char
  | [], _ => []
  | c :: cs, currentWidth =>
      if maxContentWidth < currentWidth + charWidth c then []
      else c :: truncateAux maxContentWidth cs (currentWidth + charWidth c)

/-- Display-width-aware truncation (utils.rs lines 7-35): below width 3 the
result is empty; a string already fitting in `maxWidth` is returned whole;
otherwise a prefix of width at most `maxWidth - 3` is kept and an ellipsis
appended. -/
def truncate_string (s : List Char) (maxWidth : Nat) : List Char :=
  if maxWidth < 3 then []
  else if strWidth s ≤ maxWidth then s
  else truncateAux (maxWidth - 3) s 0 ++ ['.', '.', '.']

/-- Duration formatting (utils.rs lines 87-94) helper: the two-digit
zero-padded decimal of the `{:02}` format specifier. -/
def pad2 (n : Nat) : List Char :=
  let ds := Nat.toDigits 10 n
  if ds.length < 2 then '0' :: ds else ds

/-- Duration formatting as MM:SS (utils.rs lines 87-94); an unknown (zero)
duration renders as a placeholder. -/
def format_duration (secs : Nat) : List Char :=
  if 0 < secs then pad2 (secs / 60) ++ ':' :: pad2 (secs % 60)
  else ['?', '?', ':', '?', '?']

/-- Decimal rendering of a number in the status line. -/
def natChars (n : Nat) : List Char := Nat.toDigits 10 n

/-- Bracketed field of the status line. -/
def fmtBracket (s : List Char) : List Char := '[' :: s ++ [']']

/-- The status line with a given title-artist field (main.rs lines 343-349
and 361): `[i+1/total][mode|loop][EXT][musicInfo][cur/total][vol%]`.
With an empty `musicInfo` this is the first, budget-measuring format of
line 349; with the truncated field it is the final format of line 361.
The volume percentage is the integer the `{:.0}` float format rounds to. -/
def statusLineWith (musicInfo : List Char) (i totalTracks : Nat)
    (isRandom isLoopEnabled : Bool) (ext curTimeStr totalTimeStr : List Char)
    (volPercent : Nat) : List Char :=
  let trackCount := '[' :: natChars (i + 1) ++ '/' :: natChars totalTracks ++ [']']
  let randomStr := if isRandom then "随".data else "顺".data
  let loopStr := if isLoopEnabled then "循".data else "单".data
  let playMode := randomStr ++ '|' :: loopStr
  trackCount ++ fmtBracket playMode ++ fmtBracket ext ++ fmtBracket musicInfo ++
    fmtBracket (curTimeStr ++ '/' :: totalTimeStr) ++
    fmtBracket (natChars volPercent ++ ['%'])

/-- The title-artist field of the status line (main.rs lines 354-359): below
a budget of 15 columns only the (truncated) title is shown, otherwise the
truncated "title-artist" string. -/
def musicInfoField (title artist : List Char) (budget : Nat) : List Char :=
  if budget < 15 then truncate_string title budget
  else truncate_string (title ++ '-' :: artist) budget

/-- Right-padding with spaces up to the terminal width (main.rs lines
363-366), so the line fully overwrites its predecessor. -/
def padToWidth (u : List Char) (terminalWidth : Nat) : List Char :=
  u ++ List.replicate (terminalWidth - strWidth u) ' '

/-- The fully rendered status line (main.rs lines 341-366): the title-artist
budget is the terminal width minus the width of the fixed fields (measured on
the line with an empty title-artist field); the truncated field is inserted
and the line right-padded with spaces to the terminal width. -/
def renderStatusLine (i totalTracks : Nat) (isRandom isLoopEnabled : Bool)
    (ext curTimeStr totalTimeStr : List Char) (volPercent : Nat)
    (title artist : List Char) (terminalWidth : Nat) : List Char :=
  padToWidth
    (statusLineWith
      (musicInfoField title artist
        (terminalWidth -
          strWidth (statusLineWith [] i totalTracks isRandom isLoopEnabled ext
            curTimeStr totalTimeStr volPercent)))
      i totalTracks isRandom isLoopEnabled ext curTimeStr totalTimeStr volPercent)
    terminalWidth

/-- The elapsed time the timing model stands ready to report in state `s`
when the last tick happened at `lastT`: the frozen value while a pause is
open, `lastT - start - pausedDuration` otherwise. -/
def repOf (t0 lastT : Nat) (s : PlaybackSession) : Nat :=
  match s.lastPauseTime with
  | some _ => s.lastRunningTime
  | none => lastT - t0 - s.pausedDuration

/-- Invariant of reachable timing states: the start instant is `t0`, the
last tick happened at `lastT ≥ t0`, and an open pause began at an instant
between `t0` and `lastT` at which the frozen value was snapshotted. -/
def TimingInv (t0 lastT : Nat) (s : PlaybackSession) : Prop :=
  s.startTime = t0 ∧ t0 ≤ lastT ∧
    ∀ ps, s.lastPauseTime = some ps →
      t0 ≤ ps ∧ ps ≤ lastT ∧ s.lastRunningTime = ps - t0 - s.pausedDuration

/-- Relation between consecutive `((instant, pausedFlag), reported)` entries
of a tick trace: whenever two consecutive ticks are both paused, the
reported elapsed time does not change. -/
def pausePairRel (a b : (Nat × Bool) × Nat) : Prop :=
  a.1.2 = true → b.1.2 = true → b.2 = a.2

theorem skipNextIndex_iterate (N i : Nat) (hi : i < N) :
    ∀ k, (skipNextIndex N)^[k] i = (i + k) % N := by
  intro k
  induction k with
  | zero => simp [Nat.mod_eq_of_lt hi]
  | succ k ih =>
      rw [Function.iterate_succ_apply', ih]
      unfold skipNextIndex
      rw [Nat.mod_add_mod, Nat.add_assoc]

/-- Claim C4: with loop mode enabled, a skip-next transition maps index `i`
to `(i + 1) % N` (main.rs line 437), a skip-previous transition maps `0` to
`N - 1` and any `i > 0` to `i - 1` (main.rs line 440), and `N` skip-next
transitions return to the original index. -/
theorem skip_transitions_mod (N i : Nat) (hN : 1 ≤ N) (hi : i < N) :
    skipNextIndex N i = (i + 1) % N ∧
    skipPrevIndex N 0 = N - 1 ∧
    (0 < i → skipPrevIndex N i = i - 1) ∧
    (skipNextIndex N)^[N] i = i := by
  refine ⟨rfl, rfl, ?_, ?_⟩
  · intro h
    simp [skipPrevIndex, h.ne']
  · rw [skipNextIndex_iterate N i hi N, Nat.add_mod_right, Nat.mod_eq_of_lt hi]

/-- Witness for C4 at a concrete playlist of three tracks. -/
theorem skip_transitions_mod_witness :
    skipNextIndex 3 1 = (1 + 1) % 3 ∧
    skipPrevIndex 3 0 = 3 - 1 ∧
    (0 < 1 → skipPrevIndex 3 1 = 1 - 1) ∧
    (skipNextIndex 3)^[3] 1 = 1 :=
  skip_transitions_mod 3 1 (by decide) (by decide)

/-- Claim C6: after a success matching current index `i` is consumed, a
look-ahead preload is spawned for `(i + 1) % total` if and only if that
index differs from `i` and (loop mode is enabled or `i` is not the last
index); the spawned target is never anything else; and a one-track
non-looping playlist spawns no look-ahead (main.rs lines 304-311). -/
theorem lookahead_spawn_iff (N i : Nat) (loopE : Bool) (hN : 1 ≤ N) (hi : i < N) :
    (lookaheadTarget N loopE i = some ((i + 1) % N) ↔
      ((i + 1) % N ≠ i ∧ (loopE = true ∨ i ≠ N - 1))) ∧
    (∀ n, lookaheadTarget N loopE i = some n → n = (i + 1) % N) ∧
    lookaheadTarget 1 false 0 = none := by
  have hiff : lookaheadTarget N loopE i = some ((i + 1) % N) ↔
      ((i + 1) % N ≠ i ∧ (loopE = true ∨ i < N - 1)) := by
    unfold lookaheadTarget
    split
    next h => exact iff_of_true rfl h
    next h => exact iff_of_false (by simp) h
  refine ⟨?_, ?_, by decide⟩
  · rw [hiff]
    constructor
    · rintro ⟨h1, h2⟩
      exact ⟨h1, h2.imp id fun hlt => by omega⟩
    · rintro ⟨h1, h2⟩
      exact ⟨h1, h2.imp id fun hne => by omega⟩
  · intro n hn
    unfold lookaheadTarget at hn
    split at hn
    · exact (Option.some_inj.mp hn).symm
    · exact Option.noConfusion hn

/-- Witness for C6: two-track looping playlist at index 1. -/
theorem lookahead_spawn_iff_witness :
    (lookaheadTarget 2 true 1 = some ((1 + 1) % 2) ↔
      ((1 + 1) % 2 ≠ 1 ∧ (true = true ∨ 1 ≠ 2 - 1))) ∧
    (∀ n, lookaheadTarget 2 true 1 = some n → n = (1 + 1) % 2) ∧
    lookaheadTarget 1 false 0 = none :=
  lookahead_spawn_iff 2 1 true (by decide) (by decide)

/-- Claim C7: with loop mode disabled, a skip-next key event received while
the current index is the last one leaves the inner-loop state (index offset,
forced-stop flag, sink, debounce clock, break flag) unchanged — the inner
loop continues (main.rs lines 397-402). -/
theorem skip_next_last_index_noop (N now : Nat) (st : InnerLoopState) :
    handleSkipNextKey N false (N - 1) now st = st := by
  unfold handleSkipNextKey
  split
  · rfl
  · have h : ¬(N - 1 < N - 1 ∨ false = true) := by simp
    rw [if_neg h]

theorem waitForCurrent_discarded_ne (cur : Nat) (txAlive : Bool) :
    ∀ msgs : List PreloadResult, ∀ m ∈ (waitForCurrent cur txAlive msgs).1,
      m.index ≠ cur := by
  intro msgs
  induction msgs with
  | nil => simp [waitForCurrent]
  | cons hd tl ih =>
      intro m hm
      cases hd with
      | success p i =>
          by_cases h : i = cur
          · simp [waitForCurrent, h] at hm
          · simp only [waitForCurrent, if_neg h, List.mem_cons] at hm
            rcases hm with rfl | hm
            · simpa [PreloadResult.index] using h
            · exact ih m hm
      | failure i e f =>
          by_cases h : i = cur
          · simp [waitForCurrent, h] at hm
          · simp only [waitForCurrent, if_neg h, List.mem_cons] at hm
            rcases hm with rfl | hm
            · simpa [PreloadResult.index] using h
            · exact ih m hm

theorem waitForCurrent_success_eq (cur : Nat) (txAlive : Bool) :
    ∀ (msgs : List PreloadResult) (p i : Nat) (rest : List PreloadResult),
      (waitForCurrent cur txAlive msgs).2 = .matchedSuccess p i rest →
      i = cur ∧ PreloadResult.success p i ∈ msgs := by
  intro msgs
  induction msgs with
  | nil =>
      intro p i rest h
      cases txAlive <;> simp [waitForCurrent] at h
  | cons hd tl ih =>
      intro p i rest h
      cases hd with
      | success q j =>
          by_cases hj : j = cur
          · simp only [waitForCurrent, if_pos hj] at h
            rw [WaitOutcome.matchedSuccess.injEq] at h
            obtain ⟨rfl, rfl, rfl⟩ := h
            exact ⟨hj, List.mem_cons_self _ _⟩
          · simp only [waitForCurrent, if_neg hj] at h
            obtain ⟨h1, h2⟩ := ih p i rest h
            exact ⟨h1, List.mem_cons_of_mem _ h2⟩
      | failure j e f =>
          by_cases hj : j = cur
          · simp [waitForCurrent, if_pos hj] at h
          · simp only [waitForCurrent, if_neg hj] at h
            obtain ⟨h1, h2⟩ := ih p i rest h
            exact ⟨h1, List.mem_cons_of_mem _ h2⟩

theorem waitForCurrent_failure_eq (cur : Nat) (txAlive : Bool) :
    ∀ (msgs : List PreloadResult) (i : Nat) (e f : String) (rest : List PreloadResult),
      (waitForCurrent cur txAlive msgs).2 = .matchedFailure i e f rest →
      i = cur ∧ PreloadResult.failure i e f ∈ msgs := by
  intro msgs
  induction msgs with
  | nil =>
      intro i e f rest h
      cases txAlive <;> simp [waitForCurrent] at h
  | cons hd tl ih =>
      intro i e f rest h
      cases hd with
      | success q j =>
          by_cases hj : j = cur
          · simp [waitForCurrent, if_pos hj] at h
          · simp only [waitForCurrent, if_neg hj] at h
            obtain ⟨h1, h2⟩ := ih i e f rest h
            exact ⟨h1, List.mem_cons_of_mem _ h2⟩
      | failure j e' f' =>
          by_cases hj : j = cur
          · simp only [waitForCurrent, if_pos hj] at h
            rw [WaitOutcome.matchedFailure.injEq] at h
            obtain ⟨rfl, rfl, rfl, rfl⟩ := h
            exact ⟨hj, List.mem_cons_self _ _⟩
          · simp only [waitForCurrent, if_neg hj] at h
            obtain ⟨h1, h2⟩ := ih i e f rest h
            exact ⟨h1, List.mem_cons_of_mem _ h2⟩

theorem waitForCurrent_ne_disconnected (cur : Nat) :
    ∀ msgs : List PreloadResult,
      (waitForCurrent cur true msgs).2 ≠ WaitOutcome.disconnected := by
  intro msgs
  induction msgs with
  | nil => simp [waitForCurrent]
  | cons hd tl ih =>
      cases hd with
      | success p i =>
          by_cases h : i = cur <;> simp [waitForCurrent, h, ih]
      | failure i e f =>
          by_cases h : i = cur <;> simp [waitForCurrent, h, ih]

/-- Claim C1: in every outer-loop pass (the reset check yielding an active
state `s'`), and for every arrival interleaving, each message whose tagged
index differs from the current index is discarded and never handed to the
sink — the sink only ever receives the payload of a success message tagged
with the current index — and only a message tagged with the current index
ends the wait (main.rs lines 206-284). -/
theorem stale_results_discarded (total : Nat) (loopE : Bool)
    (arrivals : List PreloadResult) (inner : InnerOutcome) (s s' : OrchState)
    (hreset : loopResetCheck total loopE s = some s') :
    (∀ m ∈ (outerPass total loopE true arrivals inner s).discarded,
        m.index ≠ s'.currentTrackIndex) ∧
    (∀ payload i,
        (outerPass total loopE true arrivals inner s).played = some (payload, i) →
        i = s'.currentTrackIndex ∧ PreloadResult.success payload i ∈ arrivals) ∧
    (∀ p i rest,
        (waitForCurrent s'.currentTrackIndex true arrivals).2 =
          .matchedSuccess p i rest → i = s'.currentTrackIndex) ∧
    (∀ i e f rest,
        (waitForCurrent s'.currentTrackIndex true arrivals).2 =
          .matchedFailure i e f rest → i = s'.currentTrackIndex) := by
  have hdisc := waitForCurrent_discarded_ne s'.currentTrackIndex true arrivals
  refine ⟨?_, ?_, ?_, ?_⟩
  · intro m hm
    apply hdisc
    cases hpair : waitForCurrent s'.currentTrackIndex true arrivals with
    | mk disc o =>
        cases o <;> simpa [outerPass, hreset, hpair] using hm
  · intro payload i hp
    cases hpair : waitForCurrent s'.currentTrackIndex true arrivals with
    | mk disc o =>
        cases o with
        | matchedSuccess q j rest =>
            simp only [outerPass, hreset, hpair] at hp
            rw [Option.some_inj, Prod.mk.injEq] at hp
            obtain ⟨rfl, rfl⟩ := hp
            exact waitForCurrent_success_eq s'.currentTrackIndex true arrivals
              q j rest (by rw [hpair])
        | matchedFailure j e f rest => simp [outerPass, hreset, hpair] at hp
        | timedOut => simp [outerPass, hreset, hpair] at hp
        | disconnected => simp [outerPass, hreset, hpair] at hp
  · intro p i rest h
    exact (waitForCurrent_success_eq s'.currentTrackIndex true arrivals p i rest h).1
  · intro i e f rest h
    exact (waitForCurrent_failure_eq s'.currentTrackIndex true arrivals i e f rest h).1

/-- Witness for C1: stale success for index 0 arriving while index 1 is
current is discarded; the matching success for index 1 is handed over. -/
theorem stale_results_discarded_witness :
    loopResetCheck 2 true { currentTrackIndex := 1, inflight := [1, 0] } =
      some { currentTrackIndex := 1, inflight := [1, 0] } ∧
    (∀ m ∈ (outerPass 2 true true
        [PreloadResult.success 100 0, PreloadResult.success 101 1]
        InnerOutcome.finished { currentTrackIndex := 1, inflight := [1, 0] }).discarded,
      m.index ≠ 1) := by
  constructor
  · decide
  · intro m hm
    have h := stale_results_discarded 2 true
      [PreloadResult.success 100 0, PreloadResult.success 101 1]
      InnerOutcome.finished { currentTrackIndex := 1, inflight := [1, 0] }
      { currentTrackIndex := 1, inflight := [1, 0] } (by decide)
    exact h.1 m hm

/-- Claim C5: a failure matching the current index produces the error line
for `(current, reason, displayName)`, the fixed 5 second dwell, the line
clear, an index increment by exactly one, a preload spawn for the new index
exactly when it is still in range, no sink hand-off (the failed track is
never played), and a continuation of the outer loop — never termination
(main.rs lines 220-252). -/
theorem matched_failure_skips (total : Nat) (loopE : Bool)
    (arrivals : List PreloadResult) (inner : InnerOutcome) (s s' : OrchState)
    (i : Nat) (e f : String) (rest : List PreloadResult)
    (hreset : loopResetCheck total loopE s = some s')
    (hwait : (waitForCurrent s'.currentTrackIndex true arrivals).2 =
      .matchedFailure i e f rest) :
    (outerPass total loopE true arrivals inner s).errorLine =
      some (s'.currentTrackIndex, e, f) ∧
    (outerPass total loopE true arrivals inner s).dwellSeconds = 5 ∧
    (outerPass total loopE true arrivals inner s).errorCleared = true ∧
    (outerPass total loopE true arrivals inner s).state.currentTrackIndex =
      s'.currentTrackIndex + 1 ∧
    (outerPass total loopE true arrivals inner s).state.inflight =
      (if s'.currentTrackIndex + 1 < total then
        (s'.currentTrackIndex + 1) ::
          (eraseDelivered s'.inflight
              (waitForCurrent s'.currentTrackIndex true arrivals).1).erase
            s'.currentTrackIndex
      else
        (eraseDelivered s'.inflight
            (waitForCurrent s'.currentTrackIndex true arrivals).1).erase
          s'.currentTrackIndex) ∧
    (outerPass total loopE true arrivals inner s).played = none ∧
    (outerPass total loopE true arrivals inner s).status = PassStatus.continued := by
  obtain ⟨hcur, _⟩ :=
    waitForCurrent_failure_eq s'.currentTrackIndex true arrivals i e f rest hwait
  subst hcur
  cases hpair : waitForCurrent s'.currentTrackIndex true arrivals with
  | mk disc o =>
      rw [hpair] at hwait
      simp only at hwait
      subst hwait
      simp [outerPass, hreset, hpair]

/-- Witness for C5 on a two-track playlist whose second track fails. -/
theorem matched_failure_skips_witness :
    (outerPass 2 false true [PreloadResult.failure 1 "解码失败" "b.mp3"]
        InnerOutcome.finished { currentTrackIndex := 1, inflight := [1] }).errorLine =
      some (1, "解码失败", "b.mp3") ∧
    (outerPass 2 false true [PreloadResult.failure 1 "解码失败" "b.mp3"]
        InnerOutcome.finished { currentTrackIndex := 1, inflight := [1] }).status =
      PassStatus.continued := by
  have h := matched_failure_skips 2 false
    [PreloadResult.failure 1 "解码失败" "b.mp3"] InnerOutcome.finished
    { currentTrackIndex := 1, inflight := [1] }
    { currentTrackIndex := 1, inflight := [1] } 1 "解码失败" "b.mp3" []
    (by decide) (by decide)
  exact ⟨h.1, h.2.2.2.2.2.2⟩

/-- Claim C10: while the orchestrator's own Sender is alive — which it is
for the entire outer loop, since `tx` is only ever cloned into workers and
dropped no earlier than the end of `main` — the receive loop can never
observe a Disconnected error, and no outer-loop pass is fatal
(main.rs lines 177-184 and 278-282). -/
theorem channel_never_disconnects (total : Nat) (loopE : Bool) (txAlive : Bool)
    (cur : Nat) (msgs arrivals : List PreloadResult) (inner : InnerOutcome)
    (s : OrchState) (htx : txAlive = true) :
    (waitForCurrent cur txAlive msgs).2 ≠ WaitOutcome.disconnected ∧
    (outerPass total loopE txAlive arrivals inner s).status ≠ PassStatus.fatal := by
  subst htx
  refine ⟨waitForCurrent_ne_disconnected cur msgs, ?_⟩
  cases hr : loopResetCheck total loopE s with
  | none => simp [outerPass, hr]
  | some s' =>
      cases hpair : waitForCurrent s'.currentTrackIndex true arrivals with
      | mk disc o =>
          cases o with
          | matchedSuccess p i rest => simp [outerPass, hr, hpair]
          | matchedFailure i e f rest => simp [outerPass, hr, hpair]
          | timedOut => simp [outerPass, hr, hpair]
          | disconnected =>
              exact absurd (by rw [hpair])
                (waitForCurrent_ne_disconnected s'.currentTrackIndex arrivals)

/-- Witness for C10 on a concrete pass. -/
theorem channel_never_disconnects_witness :
    (waitForCurrent 0 true []).2 ≠ WaitOutcome.disconnected ∧
    (outerPass 1 false true [PreloadResult.success 5 0] InnerOutcome.finished
      { currentTrackIndex := 0, inflight := [0] }).status ≠ PassStatus.fatal :=
  channel_never_disconnects 1 false true 0 [] [PreloadResult.success 5 0]
    InnerOutcome.finished { currentTrackIndex := 0, inflight := [0] } rfl

/-- Counterexample to claim C2 as stated: on a two-track looping playlist,
after track 0 and track 1 play to completion, the look-ahead preload for
index 0 (spawned when track 1's success was consumed) is still in flight
when the outer loop observes `current_track_index ≥ total`; the reset spawns
a second preload for index 0 anyway (main.rs lines 192-199 spawn
unconditionally), so two preloads for index 0 are in flight at once. -/
theorem loop_reset_duplicate_preload :
    (outerPass 2 true true [PreloadResult.success 100 0] InnerOutcome.finished
        { currentTrackIndex := 0, inflight := [0] }).state =
      { currentTrackIndex := 1, inflight := [1] } ∧
    (outerPass 2 true true [PreloadResult.success 101 1] InnerOutcome.finished
        { currentTrackIndex := 1, inflight := [1] }).state =
      { currentTrackIndex := 2, inflight := [0] } ∧
    (0 : Nat) ∈ ({ currentTrackIndex := 2, inflight := [0] } : OrchState).inflight ∧
    loopResetCheck 2 true { currentTrackIndex := 2, inflight := [0] } =
      some { currentTrackIndex := 0, inflight := [0, 0] } ∧
    List.count 0 ({ currentTrackIndex := 0, inflight := [0, 0] } : OrchState).inflight = 2 := by
  refine ⟨by decide, by decide, by decide, by decide, by decide⟩

/-- Claim C2 as amended: when the outer loop observes
`current_track_index ≥ total` with loop mode enabled, it resets the index to
0 and spawns a preload for index 0 unconditionally (the playlist being
non-empty) — even when a preload for index 0 is already in flight
(main.rs lines 192-203). -/
theorem loop_reset_unconditional_spawn (total : Nat) (loopE : Bool) (s : OrchState)
    (hidx : total ≤ s.currentTrackIndex) (hloop : loopE = true) (htotal : 0 < total) :
    loopResetCheck total loopE s =
      some { currentTrackIndex := 0, inflight := 0 :: s.inflight } := by
  subst hloop
  simp [loopResetCheck, hidx, htotal]

/-- Witness for the amended C2 at the state the counterexample reaches. -/
theorem loop_reset_unconditional_spawn_witness :
    loopResetCheck 2 true { currentTrackIndex := 2, inflight := [0] } =
      some { currentTrackIndex := 0, inflight := 0 :: [0] } :=
  loop_reset_unconditional_spawn 2 true
    { currentTrackIndex := 2, inflight := [0] } (by decide) rfl (by decide)

theorem timingTick_step (t0 lastT now : Nat) (p : Bool) (s : PlaybackSession)
    (hinv : TimingInv t0 lastT s) (hle : lastT ≤ now) :
    TimingInv t0 now (timingTick now p s).1 ∧
    (p = true → (timingTick now p s).1.lastPauseTime ≠ none) ∧
    (timingTick now p s).2 = repOf t0 now (timingTick now p s).1 ∧
    repOf t0 lastT s ≤ (timingTick now p s).2 ∧
    (p = true → s.lastPauseTime ≠ none →
      (timingTick now p s).2 = repOf t0 lastT s) := by
  obtain ⟨hstart, ht0, hps⟩ := hinv
  cases p with
  | false =>
      cases h : s.lastPauseTime with
      | none =>
          have heq : timingTick now false s = (s, now - s.startTime - s.pausedDuration) := by
            simp [timingTick, h]
          rw [heq]
          refine ⟨⟨hstart, ht0.trans hle, ?_⟩, by simp, ?_, ?_, by simp⟩
          · intro ps hps'
            rw [h] at hps'
            cases hps'
          · simp [repOf, h, hstart]
          · simp only [repOf, h, hstart]
            omega
      | some ps =>
          obtain ⟨hps1, hps2, hps3⟩ := hps ps h
          have heq : timingTick now false s =
              ({ s with pausedDuration := s.pausedDuration + (now - ps),
                        lastPauseTime := none },
               now - s.startTime - (s.pausedDuration + (now - ps))) := by
            simp [timingTick, h]
          rw [heq]
          refine ⟨⟨hstart, ht0.trans hle, ?_⟩, by simp, ?_, ?_, by simp⟩
          · intro ps' hps'
            cases hps'
          · simp [repOf, hstart]
          · simp only [repOf, h, hstart, hps3]
            omega
  | true =>
      cases h : s.lastPauseTime with
      | none =>
          have heq : timingTick now true s =
              ({ s with lastPauseTime := some now,
                        lastRunningTime := now - s.startTime - s.pausedDuration },
               now - s.startTime - s.pausedDuration) := by
            simp [timingTick, h]
          rw [heq]
          refine ⟨⟨hstart, ht0.trans hle, ?_⟩, by simp, ?_, ?_, ?_⟩
          · intro ps' hps'
            simp only at hps'
            rw [Option.some_inj] at hps'
            subst hps'
            exact ⟨ht0.trans hle, le_refl _, by simp [hstart]⟩
          · simp [repOf]
          · simp only [repOf, h, hstart]
            omega
          · intro _ hcon
            exact absurd rfl hcon
      | some ps =>
          obtain ⟨hps1, hps2, hps3⟩ := hps ps h
          have heq : timingTick now true s = (s, s.lastRunningTime) := by
            simp [timingTick, h]
          rw [heq]
          refine ⟨⟨hstart, ht0.trans hle, ?_⟩, ?_, ?_, ?_, ?_⟩
          · intro ps' hps'
            rw [h] at hps'
            rw [Option.some_inj] at hps'
            subst hps'
            exact ⟨hps1, hps2.trans hle, hps3⟩
          · intro _
            simp [h]
          · simp [repOf, h]
          · simp [repOf, h]
          · intro _ _
            simp [repOf, h]

theorem runTicks_chains (t0 : Nat) :
    ∀ (evs : List (Nat × Bool)) (s : PlaybackSession) (lastT : Nat) (lp : Bool),
      TimingInv t0 lastT s →
      (lp = true → s.lastPauseTime ≠ none) →
      List.Chain' (· ≤ ·) (lastT :: evs.map Prod.fst) →
      List.Chain' (· ≤ ·) (repOf t0 lastT s :: runTicks s evs) ∧
      List.Chain' pausePairRel
        (((lastT, lp), repOf t0 lastT s) :: evs.zip (runTicks s evs)) := by
  intro evs
  induction evs with
  | nil =>
      intro s lastT lp hinv hlp hch
      simp [runTicks]
  | cons e rest ih =>
      obtain ⟨t, p⟩ := e
      intro s lastT lp hinv hlp hch
      have hle : lastT ≤ t := (List.chain'_cons.mp hch).1
      have hch' : List.Chain' (· ≤ ·) (t :: rest.map Prod.fst) :=
        (List.chain'_cons.mp hch).2
      obtain ⟨hinv', hlp', hrep, hmono, hconst⟩ := timingTick_step t0 lastT t p s hinv hle
      obtain ⟨ihmono, ihpause⟩ := ih (timingTick t p s).1 t p hinv' hlp' hch'
      rw [← hrep] at ihmono ihpause
      constructor
      · rw [runTicks]
        exact List.chain'_cons.mpr ⟨hmono, ihmono⟩
      · rw [runTicks, List.zip_cons_cons]
        refine List.chain'_cons.mpr ⟨?_, ihpause⟩
        intro hlpt hpt
        exact hconst hpt (hlp hlpt)

theorem runTicks_getLast_le (t0 : Nat) :
    ∀ (evs : List (Nat × Bool)) (s : PlaybackSession) (lastT : Nat),
      TimingInv t0 lastT s →
      List.Chain' (· ≤ ·) (lastT :: evs.map Prod.fst) →
      ∀ t p r, evs.getLast? = some (t, p) → (runTicks s evs).getLast? = some r →
        r ≤ t - t0 - (s.pausedDuration + pausedWallClock s.lastPauseTime evs) := by
  intro evs
  induction evs with
  | nil =>
      intro s lastT hinv hch t p r hlast hrlast
      simp at hlast
  | cons e rest ih =>
      obtain ⟨te, pe⟩ := e
      intro s lastT hinv hch t p r hlast hrlast
      have hle : lastT ≤ te := (List.chain'_cons.mp hch).1
      have hch' : List.Chain' (· ≤ ·) (te :: rest.map Prod.fst) :=
        (List.chain'_cons.mp hch).2
      obtain ⟨hstart, ht0, hps⟩ := hinv
      cases rest with
      | nil =>
          simp only [List.getLast?_singleton, Option.some_inj] at hlast
          cases hlast
          simp only [runTicks, List.getLast?_singleton, Option.some_inj] at hrlast
          subst hrlast
          cases pe with
          | false =>
              cases h : s.lastPauseTime with
              | none =>
                  simp only [timingTick, h, Bool.false_eq_true, if_false]
                  simp [pausedWallClock, h, hstart]
              | some ps =>
                  obtain ⟨hps1, hps2, hps3⟩ := hps ps h
                  simp only [timingTick, h, Bool.false_eq_true, if_false]
                  simp only [pausedWallClock, h, hstart]
                  omega
          | true =>
              cases h : s.lastPauseTime with
              | none =>
                  simp only [timingTick, h, if_true]
                  simp [pausedWallClock, h, hstart]
              | some ps =>
                  obtain ⟨hps1, hps2, hps3⟩ := hps ps h
                  simp only [timingTick, h, if_true]
                  simp only [pausedWallClock, h, hstart]
                  omega
      | cons e2 rest2 =>
          rw [List.getLast?_cons_cons] at hlast
          have hrw : runTicks s ((te, pe) :: e2 :: rest2) =
              (timingTick te pe s).2 :: runTicks (timingTick te pe s).1 (e2 :: rest2) := rfl
          rw [hrw] at hrlast
          have hlen : runTicks (timingTick te pe s).1 (e2 :: rest2) ≠ [] := by
            cases e2 with
            | mk t2 p2 => simp [runTicks]
          have hsome : (runTicks (timingTick te pe s).1 (e2 :: rest2)).getLast?.isSome := by
            rw [List.getLast?_isSome]
            exact hlen
          obtain ⟨r', hr'⟩ := Option.isSome_iff_exists.mp hsome
          rw [List.getLast?_cons, Option.some_inj, hr', Option.getD_some] at hrlast
          subst hrlast
          obtain ⟨hinv', _, _, _, _⟩ := timingTick_step t0 lastT te pe s ⟨hstart, ht0, hps⟩ hle
          have hfin := ih (timingTick te pe s).1 te hinv' hch' t p r' hlast hr'
          cases pe with
            | false =>
                cases h : s.lastPauseTime with
                | none =>
                    simp only [timingTick, h, Bool.false_eq_true, if_false] at hfin ⊢
                    simpa [pausedWallClock, h] using hfin
                | some ps =>
                    obtain ⟨hps1, hps2, hps3⟩ := hps ps h
                    simp only [timingTick, h, Bool.false_eq_true, if_false] at hfin ⊢
                    simp only [pausedWallClock, h] at hfin ⊢
                    omega
            | true =>
                cases h : s.lastPauseTime with
                | none =>
                    simp only [timingTick, h, if_true] at hfin ⊢
                    simpa [pausedWallClock, h] using hfin
                | some ps =>
                    simp only [timingTick, h, if_true] at hfin ⊢
                    simpa [pausedWallClock, h] using hfin

/-- Claim C3: over any pause/resume/tick trace with non-decreasing instants
starting no earlier than the session start, the reported elapsed times are
monotonically non-decreasing, constant across any two consecutive paused
ticks (hence frozen — at the value snapshotted by the first paused tick —
for the whole duration of a pause), and the final reported value never
exceeds the wall-clock time since the session start minus the wall-clock
time spent in completed pauses (main.rs lines 313-338). -/
theorem elapsed_time_monotone (t0 : Nat) (evs : List (Nat × Bool))
    (hch : List.Chain' (· ≤ ·) (t0 :: evs.map Prod.fst)) :
    List.Chain' (· ≤ ·) (runTicks (newSession t0) evs) ∧
    List.Chain' pausePairRel (evs.zip (runTicks (newSession t0) evs)) ∧
    (∀ t p r, evs.getLast? = some (t, p) →
      (runTicks (newSession t0) evs).getLast? = some r →
      r ≤ t - t0 - pausedWallClock none evs) := by
  have hinv : TimingInv t0 t0 (newSession t0) :=
    ⟨rfl, le_refl _, by simp [newSession]⟩
  obtain ⟨h1, h2⟩ := runTicks_chains t0 evs (newSession t0) t0 false hinv (by simp) hch
  refine ⟨(List.chain'_cons'.mp h1).2, (List.chain'_cons'.mp h2).2, ?_⟩
  intro t p r hlast hrlast
  have hb := runTicks_getLast_le t0 evs (newSession t0) t0 hinv hch t p r hlast hrlast
  simpa [newSession] using hb

/-- Witness for C3 on the trace play, pause, pause, resume. -/
theorem elapsed_time_monotone_witness :
    List.Chain' (· ≤ ·)
      ((0 : Nat) :: ([(1, false), (2, true), (3, true), (5, false)] :
        List (Nat × Bool)).map Prod.fst) ∧
    List.Chain' (· ≤ ·)
      (runTicks (newSession 0) [(1, false), (2, true), (3, true), (5, false)]) :=
  ⟨by simp [List.chain'_cons],
   (elapsed_time_monotone 0 [(1, false), (2, true), (3, true), (5, false)]
     (by simp [List.chain'_cons])).1⟩

/-- Claim C8: pausing and then immediately resuming with zero elapsed
wall-clock time is neutral for the reported elapsed time — the paused tick
reports exactly what a playing tick at the same instant would have
reported, and so does the playing tick right after the resume
(main.rs lines 324-338). -/
theorem pause_resume_idempotent (s : PlaybackSession) (now : Nat)
    (hplay : s.lastPauseTime = none) :
    (timingTick now true s).2 = (timingTick now false s).2 ∧
    (timingTick now false (timingTick now true s).1).2 =
      (timingTick now false s).2 := by
  constructor
  · simp [timingTick, hplay]
  · simp [timingTick, hplay]

/-- Witness for C8 mid-way through a fresh session. -/
theorem pause_resume_idempotent_witness :
    (timingTick 7 true (newSession 2)).2 = (timingTick 7 false (newSession 2)).2 ∧
    (timingTick 7 false (timingTick 7 true (newSession 2)).1).2 =
      (timingTick 7 false (newSession 2)).2 :=
  pause_resume_idempotent (newSession 2) 7 rfl

theorem strWidth_append (a b : List Char) :
    strWidth (a ++ b) = strWidth a + strWidth b := by
  simp [strWidth]

theorem truncateAux_width_le (m : Nat) :
    ∀ (s : List Char) (cur : Nat), cur ≤ m →
      cur + strWidth (truncateAux m s cur) ≤ m := by
  intro s
  induction s with
  | nil =>
      intro cur h
      simpa [truncateAux, strWidth] using h
  | cons c cs ih =>
      intro cur h
      by_cases hc : m < cur + charWidth c
      · simpa [truncateAux, hc, strWidth] using h
      · have h2 := ih (cur + charWidth c) (by omega)
        simp only [truncateAux, if_neg hc, strWidth, List.map_cons, List.sum_cons] at h2 ⊢
        omega

theorem truncate_string_width_le (s : List Char) (w : Nat) :
    strWidth (truncate_string s w) ≤ w := by
  unfold truncate_string
  split
  next h => simp [strWidth]
  next h =>
    split
    next h2 => exact h2
    next h2 =>
      rw [strWidth_append]
      have ha := truncateAux_width_le (w - 3) s 0 (Nat.zero_le _)
      have hd : strWidth ['.', '.', '.'] = 3 := by decide
      omega

theorem musicInfoField_width_le (title artist : List Char) (budget : Nat) :
    strWidth (musicInfoField title artist budget) ≤ budget := by
  unfold musicInfoField
  split
  · exact truncate_string_width_le title budget
  · exact truncate_string_width_le (title ++ '-' :: artist) budget

theorem statusLineWith_width (m : List Char) (i total : Nat) (isR isL : Bool)
    (ext ct tt : List Char) (vol : Nat) :
    strWidth (statusLineWith m i total isR isL ext ct tt vol) =
      strWidth (statusLineWith [] i total isR isL ext ct tt vol) + strWidth m := by
  simp only [statusLineWith, fmtBracket, strWidth, List.map_append, List.sum_append,
    List.map_cons, List.sum_cons, List.map_nil, List.sum_nil]
  omega

theorem padToWidth_width_le (u : List Char) (tw : Nat) (h : strWidth u ≤ tw) :
    strWidth (padToWidth u tw) ≤ tw := by
  unfold padToWidth
  rw [strWidth_append]
  have h1 : charWidth ' ' = 1 := by decide
  have h2 : strWidth (List.replicate (tw - strWidth u) ' ') = tw - strWidth u := by
    simp [strWidth, List.map_replicate, List.sum_replicate, h1, smul_eq_mul]
  omega

/-- Claim C9 as amended: display-width truncation is correct — the result of
`truncate_string s w` has width at most `w`, is empty for `w < 3`, and when
truncation occurs it is a kept prefix of width at most `w - 3` followed by
the three-column ellipsis (utils.rs lines 7-35).  The rendered status line's
width stays within the terminal width whenever the terminal is at least as
wide as the fixed fields (the line with an empty title-artist slot); for
narrower terminals — even of width ≥ 3 — the fixed fields alone overflow
(main.rs lines 341-366). -/
theorem truncation_and_status_width (s : List Char) (w : Nat) :
    strWidth (truncate_string s w) ≤ w ∧
    (w < 3 → truncate_string s w = []) ∧
    (3 ≤ w → w < strWidth s →
      truncate_string s w = truncateAux (w - 3) s 0 ++ ['.', '.', '.'] ∧
      strWidth (truncateAux (w - 3) s 0) ≤ w - 3) ∧
    (∀ (i total : Nat) (isR isL : Bool) (ext ct tt : List Char) (vol : Nat)
        (title artist : List Char) (tw : Nat),
      strWidth (statusLineWith [] i total isR isL ext ct tt vol) ≤ tw →
      strWidth (renderStatusLine i total isR isL ext ct tt vol title artist tw) ≤ tw) := by
  refine ⟨truncate_string_width_le s w, ?_, ?_, ?_⟩
  · intro h
    simp [truncate_string, h]
  · intro h3 hgt
    refine ⟨?_, ?_⟩
    · unfold truncate_string
      rw [if_neg (by omega), if_neg (by omega)]
    · have := truncateAux_width_le (w - 3) s 0 (Nat.zero_le _)
      omega
  · intro i total isR isL ext ct tt vol title artist tw hbase
    unfold renderStatusLine
    apply padToWidth_width_le
    rw [statusLineWith_width]
    have := musicInfoField_width_le title artist
      (tw - strWidth (statusLineWith [] i total isR isL ext ct tt vol))
    omega

/-- Counterexample to claim C9 as stated: at terminal width 3 (which is
≥ 3), with one track, no shuffle, no loop, extension MP3, unknown times and
volume 100%, the fixed fields of the status line are alone 38 columns wide,
so the rendered line has width 38 > 3 — the claim's bound fails for all
terminal widths below the fixed fields' width. -/
theorem status_width_counterexample :
    strWidth (renderStatusLine 0 1 false false ("MP3".data) ("??:??".data)
        ("??:??".data) 100 ("T".data) ("A".data) 3) = 38 ∧
    3 < strWidth (renderStatusLine 0 1 false false ("MP3".data) ("??:??".data)
        ("??:??".data) 100 ("T".data) ("A".data) 3) := by
  refine ⟨by decide, by decide⟩

/-- Witness for the amended C9: a long title truncated to 10 columns, and a
status line rendered into an 80-column terminal. -/
theorem truncation_and_status_width_witness :
    strWidth (truncate_string ("a quite long title".data) 10) ≤ 10 ∧
    strWidth (renderStatusLine 0 1 false false ("MP3".data) ("??:??".data)
        ("??:??".data) 100 ("Title".data) ("Artist".data) 80) ≤ 80 :=
  ⟨(truncation_and_status_width ("a quite long title".data) 10).1,
   (truncation_and_status_width [] 0).2.2.2 0 1 false false ("MP3".data)
     ("??:??".data) ("??:??".data) 100 ("Title".data) ("Artist".data) 80
     (by decide)⟩

end MddPlayer
